import Mathlib

/-!
Verification development for the Circle Gauntlet simulation core
(`src/main.rs`).  The per-frame simulation step, the velocity pipeline
(drag, input acceleration, clamp), the obstacle collision response, the
goal checks, the life bookkeeping and the obstacle layout generator are
embedded shallowly over `ℝ × ℝ`; f32 arithmetic is modelled by real
arithmetic.
-/

noncomputable section

namespace CircleGauntlet

open Classical

/-- 2D vectors, as in `rusty_engine::glm::Vec2`. -/
abbrev Vec2 : Type := ℝ × ℝ

/-- Constant `GOAL_RADIUS` from the source. -/
def GOAL_RADIUS : ℝ := 1 / 8

/-- Constant `OBSTACLE_RADIUS` from the source. -/
def OBSTACLE_RADIUS : ℝ := 1 / 12

/-- Constant `PLAYER_RADIUS` from the source. -/
def PLAYER_RADIUS : ℝ := 1 / 16

/-- Constant `LIFE_MAX` from the source. -/
def LIFE_MAX : ℤ := 10

/-- Local constant `max_vel` of the velocity update. -/
def max_vel : ℝ := 0.5

/-- Local constant `win_vel` of the velocity update. -/
def win_vel : ℝ := 0.9

/-- Local constant `bounce_vel` of the velocity update. -/
def bounce_vel : ℝ := 0.75

/-- Local constant `input_scale` of the velocity update. -/
def input_scale : ℝ := 1

/-- Local constant `drag` of the velocity update. -/
def drag : ℝ := 0.8

/-- `goal_start_pos` from the source. -/
def goal_start_pos : Vec2 := (0.75, -0.75)

/-- `player_start_pos` from the source. -/
def player_start_pos : Vec2 := (-0.75, 0.75)

/-- `obstacle_spacing` from the source. -/
def obstacle_spacing : ℝ := 0.1

/-- Dot product of two vectors. -/
def dot (v w : Vec2) : ℝ := v.1 * w.1 + v.2 * w.2

/-- `Vec2::magnitude`: Euclidean norm. -/
def magnitude (v : Vec2) : ℝ := Real.sqrt (v.1 ^ 2 + v.2 ^ 2)

/-- `glm::distance2`: squared Euclidean distance. -/
def distance2 (p q : Vec2) : ℝ := (p.1 - q.1) ^ 2 + (p.2 - q.2) ^ 2

/-- `glm::distance`: Euclidean distance. -/
def distance (p q : Vec2) : ℝ := Real.sqrt (distance2 p q)

/-- `Vec2::normalize`: divide by the norm.  On a zero vector the source
(IEEE f32) divides zero by zero; over `ℝ` the Lean convention `x / 0 = 0`
makes this the zero vector, a divergence tracked explicitly where it
matters. -/
def normalize (v : Vec2) : Vec2 := (1 / magnitude v) • v

/-- `glm::reflect_vec(I, N) = I - 2 (N·I) N`. -/
def reflect_vec (v n : Vec2) : Vec2 := v - (2 * dot v n) • n

/-- Perpendicular used for the bounce surface:
`Vec2::new(-normal[1], normal[0])`. -/
def perp (n : Vec2) : Vec2 := (-n.2, n.1)

-- Simulation step ---------------------------------------------------------

/-- Why the game loop ended: `println!("YOU DIED!")` or `println!("YOU WIN!")`.
(The external quit event short-circuits the whole frame and is not part of
the simulation step.) -/
inductive EndReason : Type
  | died : EndReason
  | won : EndReason
deriving DecidableEq

/-- The mutable simulation state of a run: player position and velocity,
the `life` counter, the Enemy entity's position, and whether (and why) the
game loop has exited. -/
structure GameState : Type where
  pos : Vec2
  vel : Vec2
  life : ℤ
  enemyPos : Vec2
  result : Option EndReason
deriving DecidableEq

/-- The state entering the first frame: lines 97-136 of the source. -/
def initState : GameState :=
  { pos := player_start_pos
    vel := (0, 0)
    life := LIFE_MAX
    enemyPos := (0.75, 0.75)
    result := none }

/-- Obstacle scan (lines 165-174): the last obstacle in iteration order
whose distance to the player is below `PLAYER_RADIUS + OBSTACLE_RADIUS`
overwrites `maybe_collision`. -/
def detectCollision (obs : List Vec2) (p : Vec2) : Option Vec2 :=
  obs.foldl
    (fun acc o =>
      if distance p o < PLAYER_RADIUS + OBSTACLE_RADIUS then some o else acc)
    none

/-- Drag (line 189): `vel *= 1.0 - drag * delta`. -/
def dragVel (δ : ℝ) (v : Vec2) : Vec2 := (1 - drag * δ) • v

/-- Input acceleration (line 193):
`vel += direction * input_scale * delta`. -/
def accelVel (input : Vec2) (δ : ℝ) (v : Vec2) : Vec2 :=
  v + (input_scale * δ) • input

/-- Clamp (lines 197-199): if the post-acceleration magnitude exceeds
`max_vel` and the pre-acceleration magnitude `m`, rescale to `m`. -/
def clampVel (v : Vec2) (m : ℝ) : Vec2 :=
  if magnitude v > max_vel ∧ magnitude v > m then m • normalize v else v

/-- The whole drag / accelerate / clamp stage (lines 188-199). -/
def velAfterDragClamp (v input : Vec2) (δ : ℝ) : Vec2 :=
  clampVel (accelVel input δ (dragVel δ v)) (magnitude (dragVel δ v))

/-- Bounce response (lines 214-219): reflect the velocity about the
perpendicular of the outward normal, negate, normalize and scale by
`bounce_vel`. -/
def bounceResponse (p cpos v : Vec2) : Vec2 :=
  bounce_vel • (-normalize (reflect_vec v (perp (normalize (cpos - p)))))

/-- Velocity after the collision branch: unchanged when no collision was
detected, otherwise the bounce response. -/
def applyBounce (p : Vec2) (mc : Option Vec2) (v : Vec2) : Vec2 :=
  match mc with
  | none => v
  | some cpos => bounceResponse p cpos v

/-- Life after the collision branch (line 204): decremented exactly once
when a collision was detected this frame. -/
def lifeAfter (l : ℤ) (mc : Option Vec2) : ℤ :=
  match mc with
  | none => l
  | some _ => l - 1

/-- Goal attraction impulse (lines 225-227):
`((goal - pos).normalize() * delta).normalize() * win_vel * delta`. -/
def goalImpulse (p : Vec2) (δ : ℝ) : Vec2 :=
  (win_vel * δ) • normalize (δ • normalize (goal_start_pos - p))

/-- Boundary exceedance test (lines 242-246). -/
def outOfBounds (p : Vec2) : Prop :=
  p.1 < -1 - PLAYER_RADIUS ∨ p.1 > 1 + PLAYER_RADIUS ∨
  p.2 < -1 - PLAYER_RADIUS ∨ p.2 > 1 + PLAYER_RADIUS

/-- The body of one active frame (lines 156-248 and the `dead` check at
line 307), run only while the loop has not yet exited. -/
def frameActive (obs : List Vec2) (input : Vec2) (δ : ℝ) (s : GameState) :
    GameState :=
  let mc := detectCollision obs s.pos
  let v1 := velAfterDragClamp s.vel input δ
  let v2 := applyBounce s.pos mc v1
  let life2 := lifeAfter s.life mc
  let gd := distance s.pos goal_start_pos
  let v3 := if gd < PLAYER_RADIUS + GOAL_RADIUS then v2 + goalImpulse s.pos δ
            else v2
  if gd < (PLAYER_RADIUS + GOAL_RADIUS) / 3 then
    -- `break 'gameloop` at line 234: position is not updated on a win frame.
    { s with
      vel := v3
      life := life2
      result := some EndReason.won }
  else
    let newPos := s.pos + δ • v3
    let dead := (mc.isSome ∧ life2 ≤ 0) ∨ outOfBounds newPos
    { s with
      pos := newPos
      vel := v3
      life := life2
      result := if dead then some EndReason.died else none }

/-- One frame of the game loop.  After the loop has exited (`result` set)
no further simulation occurs. -/
def frame (obs : List Vec2) (input : Vec2) (δ : ℝ) (s : GameState) :
    GameState :=
  if s.result.isSome then s else frameActive obs input δ s

/-- A run: iterate `frame` over a list of per-frame (input, delta) pairs. -/
def runFrames (obs : List Vec2) : List (Vec2 × ℝ) → GameState → GameState
  | [], s => s
  | f :: rest, s => runFrames obs rest (frame obs f.1 f.2 s)

-- Obstacle layout generator (lines 109-130) -------------------------------

/-- Minimum squared distance from `pos` to the previously placed obstacles
(`min_by` over the iterator, `unwrap_or(500.)` when there are none). -/
def minDist2 (pos : Vec2) (prev : List Vec2) : ℝ :=
  match prev.map (distance2 pos) with
  | [] => 500
  | d :: ds => ds.foldl min d

/-- The `while` condition of the rejection sampler (lines 115-124): the
candidate is rejected while it is too close to the player start, the goal
start, or any previously placed obstacle. -/
def rejectCond (pos : Vec2) (prev : List Vec2) : Prop :=
  distance2 pos player_start_pos < obstacle_spacing ∨
  distance2 pos goal_start_pos < obstacle_spacing ∨
  minDist2 pos prev < obstacle_spacing

/-- One iteration of the outer `for` loop: draw candidates until one is
accepted (the initial candidate `player_start_pos` is always rejected, so
the accepted position is the first acceptable draw).  `none` when the
supply of draws is exhausted. -/
def placeOne : List Vec2 → List Vec2 → Option (Vec2 × List Vec2)
  | [], _ => none
  | d :: rest, prev =>
      if rejectCond d prev then placeOne rest prev else some (d, rest)

/-- Place `n` obstacles, threading the remaining random draws. -/
def placeObstacles : ℕ → List Vec2 → List Vec2 → Option (List Vec2)
  | 0, _, prev => some prev
  | n + 1, draws, prev =>
      match placeOne draws prev with
      | none => none
      | some (p, rest) => placeObstacles n rest (prev ++ [p])

/-- The layout generator with the reference parameters: 16 obstacles,
spacing threshold 0.1. -/
def obstacleLayout (draws : List Vec2) : Option (List Vec2) :=
  placeObstacles 16 draws []

-- Concrete states, obstacle sets and runs used in the development ------

/-- Obstacle list for the C2 counterexample frame. -/
def obsC2 : List Vec2 := [((1 : ℝ) / 10, (0 : ℝ))]

/-- State for the C2 counterexample frame: player at the origin, at rest,
overlapping the single obstacle. -/
def sC2 : GameState :=
  { pos := 0
    vel := 0
    life := 10
    enemyPos := (0.75, 0.75)
    result := none }

/-- Invariant carried by every reachable state: life is within bounds and,
while the run is still active, at least 1. -/
def lifeInv (s : GameState) : Prop :=
  0 ≤ s.life ∧ s.life ≤ LIFE_MAX ∧ (s.result = none → 1 ≤ s.life)

/-- State for the C4 counterexample: one life left, overlapping an
obstacle, and inside the win radius of the goal. -/
def sC4 : GameState :=
  { pos := ((4 : ℝ) / 5, -((3 : ℝ) / 4))
    vel := 0
    life := 1
    enemyPos := (0.75, 0.75)
    result := none }

/-- Obstacle list for the C4 counterexample. -/
def obsC4 : List Vec2 := [((4 : ℝ) / 5, -((7 : ℝ) / 10))]

/-- State for the C4 witness: one life left, overlapping an obstacle, far
from the goal. -/
def sC4w : GameState :=
  { pos := 0
    vel := 0
    life := 1
    enemyPos := (0.75, 0.75)
    result := none }

/-- The vectors passed to `normalize` during one frame, in program order:
the clamp rescale argument (line 198), the bounce normal `cpos - pos`
(line 215) and the reflected velocity (line 218) on a collision frame, and
the goal-impulse arguments `goal - pos` and `(goal - pos).normalize() *
delta` (line 225) when the player is inside the attraction radius.  The
source's `normalize` has no zero guard, so it is free of the degenerate
0/0 division exactly when every listed vector is nonzero. -/
def frameNormalizeArgs (obs : List Vec2) (input : Vec2) (δ : ℝ)
    (s : GameState) : List Vec2 :=
  if s.result.isSome then [] else
  let mc := detectCollision obs s.pos
  let vd := dragVel δ s.vel
  let va := accelVel input δ vd
  let clampArgs :=
    if magnitude va > max_vel ∧ magnitude va > magnitude vd then [va] else []
  let bounceArgs :=
    match mc with
    | none => []
    | some cpos =>
        [cpos - s.pos,
         reflect_vec (velAfterDragClamp s.vel input δ)
           (perp (normalize (cpos - s.pos)))]
  let goalArgs :=
    if distance s.pos goal_start_pos < PLAYER_RADIUS + GOAL_RADIUS then
      [goal_start_pos - s.pos, δ • normalize (goal_start_pos - s.pos)]
    else []
  clampArgs ++ bounceArgs ++ goalArgs

/-- State for the C8 counterexample: player at rest inside the goal's
attraction radius. -/
def sC8 : GameState :=
  { pos := ((13 : ℝ) / 20, -((3 : ℝ) / 4))
    vel := 0
    life := 10
    enemyPos := (0.75, 0.75)
    result := none }

/-- State for the C9 counterexample: player at rest inside the goal's
attraction radius (outside the win radius), so the `delta = 0` frame
normalizes a zero vector before integrating the position. -/
def sC9 : GameState :=
  { pos := ((3 : ℝ) / 5, -((3 : ℝ) / 4))
    vel := 0
    life := 10
    enemyPos := (0.75, 0.75)
    result := none }

/-- Draws for the C6 witness: a 4-by-4 grid with step 9/20, every point
acceptable on the first draw. -/
def drawsC6 : List Vec2 :=
  [(-((9:ℝ)/10), -((9:ℝ)/10)), (-((9:ℝ)/20), -((9:ℝ)/10)),
   ((0:ℝ), -((9:ℝ)/10)), (((9:ℝ)/20), -((9:ℝ)/10)),
   (-((9:ℝ)/10), -((9:ℝ)/20)), (-((9:ℝ)/20), -((9:ℝ)/20)),
   ((0:ℝ), -((9:ℝ)/20)), (((9:ℝ)/20), -((9:ℝ)/20)),
   (-((9:ℝ)/10), (0:ℝ)), (-((9:ℝ)/20), (0:ℝ)),
   ((0:ℝ), (0:ℝ)), (((9:ℝ)/20), (0:ℝ)),
   (-((9:ℝ)/10), ((9:ℝ)/20)), (-((9:ℝ)/20), ((9:ℝ)/20)),
   ((0:ℝ), ((9:ℝ)/20)), (((9:ℝ)/20), ((9:ℝ)/20))]

/-- Obstacle set for the C1 counterexample: the C6 grid with its last
point replaced by `(-1/4, 3/4)`, placed in the player's path.  The set
still satisfies every generator spacing constraint. -/
def obsC1 : List Vec2 :=
  [(-((9:ℝ)/10), -((9:ℝ)/10)), (-((9:ℝ)/20), -((9:ℝ)/10)),
   ((0:ℝ), -((9:ℝ)/10)), (((9:ℝ)/20), -((9:ℝ)/10)),
   (-((9:ℝ)/10), -((9:ℝ)/20)), (-((9:ℝ)/20), -((9:ℝ)/20)),
   ((0:ℝ), -((9:ℝ)/20)), (((9:ℝ)/20), -((9:ℝ)/20)),
   (-((9:ℝ)/10), (0:ℝ)), (-((9:ℝ)/20), (0:ℝ)),
   ((0:ℝ), (0:ℝ)), (((9:ℝ)/20), (0:ℝ)),
   (-((9:ℝ)/10), ((9:ℝ)/20)), (-((9:ℝ)/20), ((9:ℝ)/20)),
   ((0:ℝ), ((9:ℝ)/20)), (-((1:ℝ)/4), ((3:ℝ)/4))]

/-- The inputs and deltas of the C1 counterexample run: push right for
two frames of `delta = 1/2`, then one idle frame (all deltas
non-negative). -/
def framesC1 : List (Vec2 × ℝ) :=
  [((((1:ℝ), (0:ℝ))), (1:ℝ)/2), ((((1:ℝ), (0:ℝ))), (1:ℝ)/2),
   ((((0:ℝ), (0:ℝ))), (0:ℝ))]

-- Basic vector lemmas ---------------------------------------------------

theorem magnitude_nonneg (v : Vec2) : 0 ≤ magnitude v :=
  Real.sqrt_nonneg _

theorem magnitude_eq_zero_iff (v : Vec2) : magnitude v = 0 ↔ v = 0 := by
  unfold magnitude
  rw [Real.sqrt_eq_zero (by positivity)]
  constructor
  · intro h
    have h1 : v.1 = 0 := by nlinarith [sq_nonneg v.1, sq_nonneg v.2]
    have h2 : v.2 = 0 := by nlinarith [sq_nonneg v.1, sq_nonneg v.2]
    exact Prod.ext h1 h2
  · intro h; subst h; norm_num

theorem magnitude_pos (v : Vec2) (hv : v ≠ 0) : 0 < magnitude v := by
  rcases lt_or_eq_of_le (magnitude_nonneg v) with h | h
  · exact h
  · exact absurd ((magnitude_eq_zero_iff v).mp h.symm) hv

theorem magnitude_smul (c : ℝ) (v : Vec2) :
    magnitude (c • v) = |c| * magnitude v := by
  unfold magnitude
  have : (c • v).1 ^ 2 + (c • v).2 ^ 2 = c ^ 2 * (v.1 ^ 2 + v.2 ^ 2) := by
    simp [Prod.smul_def, smul_eq_mul]; ring
  rw [this, Real.sqrt_mul (by positivity), Real.sqrt_sq_eq_abs]

theorem magnitude_neg (v : Vec2) : magnitude (-v) = magnitude v := by
  unfold magnitude; simp [neg_pow]

theorem magnitude_normalize (v : Vec2) (hv : v ≠ 0) :
    magnitude (normalize v) = 1 := by
  unfold normalize
  rw [magnitude_smul]
  have hm : 0 < magnitude v := magnitude_pos v hv
  rw [abs_of_pos (by positivity)]
  field_simp

theorem normalize_zero : normalize (0 : Vec2) = 0 := by
  unfold normalize; simp

theorem magnitude_zero : magnitude (0 : Vec2) = 0 := by
  unfold magnitude; simp

/-- Reflection about a unit vector is an isometry. -/
theorem magnitude_reflect (v n : Vec2) (hn : magnitude n = 1) :
    magnitude (reflect_vec v n) = magnitude v := by
  have hn2 : n.1 ^ 2 + n.2 ^ 2 = 1 := by
    have := congrArg (fun t => t ^ 2) hn
    simpa [magnitude, Real.sq_sqrt (by positivity : (0:ℝ) ≤ n.1 ^ 2 + n.2 ^ 2)]
      using this
  unfold magnitude reflect_vec dot
  congr 1
  simp only [Prod.smul_def, smul_eq_mul, Prod.fst_sub, Prod.snd_sub,
    Prod.fst_mul, Prod.snd_mul]
  linear_combination (4 * (v.1 * n.1 + v.2 * n.2) ^ 2) * hn2

theorem magnitude_perp (n : Vec2) : magnitude (perp n) = magnitude n := by
  unfold magnitude perp
  congr 1
  ring

-- Evaluation helpers ------------------------------------------------------

theorem magnitude_eval {v : Vec2} {m : ℝ} (hm : 0 ≤ m)
    (h : m ^ 2 = v.1 ^ 2 + v.2 ^ 2) : magnitude v = m := by
  unfold magnitude; rw [← h, Real.sqrt_sq hm]

theorem magnitude_gt_iff {c : ℝ} (hc : 0 ≤ c) (v : Vec2) :
    magnitude v > c ↔ c ^ 2 < v.1 ^ 2 + v.2 ^ 2 := by
  unfold magnitude; exact Real.lt_sqrt hc

theorem distance_lt_iff {r : ℝ} (hr : 0 < r) (p q : Vec2) :
    distance p q < r ↔ distance2 p q < r ^ 2 := by
  unfold distance; exact Real.sqrt_lt' hr

/-- The obstacle-overlap test, reduced to squared distances
(`PLAYER_RADIUS + OBSTACLE_RADIUS = 7/48`). -/
theorem collision_cond (p o : Vec2) :
    distance p o < PLAYER_RADIUS + OBSTACLE_RADIUS ↔
      distance2 p o < 49 / 2304 := by
  have h := distance_lt_iff (r := PLAYER_RADIUS + OBSTACLE_RADIUS)
    (by norm_num [PLAYER_RADIUS, OBSTACLE_RADIUS]) p o
  rw [h]; norm_num [PLAYER_RADIUS, OBSTACLE_RADIUS]

/-- The goal-attraction test, reduced to squared distances
(`PLAYER_RADIUS + GOAL_RADIUS = 3/16`). -/
theorem goal_near_cond (p : Vec2) :
    distance p goal_start_pos < PLAYER_RADIUS + GOAL_RADIUS ↔
      distance2 p goal_start_pos < 9 / 256 := by
  have h := distance_lt_iff (r := PLAYER_RADIUS + GOAL_RADIUS)
    (by norm_num [PLAYER_RADIUS, GOAL_RADIUS]) p goal_start_pos
  rw [h]; norm_num [PLAYER_RADIUS, GOAL_RADIUS]

/-- The win test, reduced to squared distances
(`(PLAYER_RADIUS + GOAL_RADIUS)/3 = 1/16`). -/
theorem goal_win_cond (p : Vec2) :
    distance p goal_start_pos < (PLAYER_RADIUS + GOAL_RADIUS) / 3 ↔
      distance2 p goal_start_pos < 1 / 256 := by
  have h := distance_lt_iff (r := (PLAYER_RADIUS + GOAL_RADIUS) / 3)
    (by norm_num [PLAYER_RADIUS, GOAL_RADIUS]) p goal_start_pos
  rw [h]; norm_num [PLAYER_RADIUS, GOAL_RADIUS]

theorem ne_zero_of_magnitude_gt {v : Vec2} {c : ℝ} (hc : 0 ≤ c)
    (h : magnitude v > c) : v ≠ 0 := by
  intro h0
  rw [h0, magnitude_zero] at h
  exact absurd (lt_of_le_of_lt hc h) (lt_irrefl 0)

theorem magnitude_smul_normalize {m : ℝ} (hm : 0 ≤ m) {v : Vec2}
    (hv : v ≠ 0) : magnitude (m • normalize v) = m := by
  rw [magnitude_smul, magnitude_normalize _ hv, abs_of_nonneg hm, mul_one]

theorem perp_zero : perp (0 : Vec2) = 0 := by
  unfold perp; simp

theorem reflect_vec_zero_right (v : Vec2) : reflect_vec v 0 = v := by
  unfold reflect_vec dot; simp

-- Claim theorems: velocity pipeline ---------------------------------------

/-- C7: if after acceleration the velocity magnitude exceeds `max_vel` and
the pre-acceleration magnitude, the velocity is rescaled to exactly the
pre-acceleration magnitude keeping the post-acceleration direction; in
every other case the clamp leaves the post-acceleration velocity
unchanged. -/
theorem c7_clamp_exact (vel input : Vec2) (δ : ℝ) :
    (magnitude (accelVel input δ (dragVel δ vel)) > max_vel ∧
       magnitude (accelVel input δ (dragVel δ vel)) >
         magnitude (dragVel δ vel) →
     velAfterDragClamp vel input δ =
       magnitude (dragVel δ vel) •
         normalize (accelVel input δ (dragVel δ vel)) ∧
     magnitude (velAfterDragClamp vel input δ) =
       magnitude (dragVel δ vel)) ∧
    (¬ (magnitude (accelVel input δ (dragVel δ vel)) > max_vel ∧
          magnitude (accelVel input δ (dragVel δ vel)) >
            magnitude (dragVel δ vel)) →
     velAfterDragClamp vel input δ = accelVel input δ (dragVel δ vel)) := by
  constructor
  · intro h
    have hne : accelVel input δ (dragVel δ vel) ≠ 0 :=
      ne_zero_of_magnitude_gt (by norm_num [max_vel]) h.1
    unfold velAfterDragClamp clampVel
    rw [if_pos h]
    exact ⟨rfl, magnitude_smul_normalize (magnitude_nonneg _) hne⟩
  · intro h
    unfold velAfterDragClamp clampVel
    rw [if_neg h]

/-- Witness for C7 at a concrete input: with previous velocity `(1/2, 0)`,
input `(1, 0)` and `delta = 1/2` the clamp fires and rescales the
velocity `(4/5, 0)` back to the post-drag magnitude `3/10`. -/
theorem c7_clamp_exact_witness :
    velAfterDragClamp ((1 : ℝ) / 2, (0 : ℝ)) (1, 0) (1 / 2) =
      ((3 : ℝ) / 10, (0 : ℝ)) ∧
    magnitude (velAfterDragClamp ((1 : ℝ) / 2, (0 : ℝ)) (1, 0) (1 / 2)) =
      3 / 10 := by
  have hd : dragVel (1 / 2) ((1 : ℝ) / 2, (0 : ℝ)) = ((3 : ℝ) / 10, 0) := by
    unfold dragVel drag
    rw [Prod.ext_iff]
    constructor <;> simp <;> norm_num
  have ha : accelVel (1, 0) (1 / 2) (dragVel (1 / 2) ((1 : ℝ) / 2, (0 : ℝ)))
      = ((4 : ℝ) / 5, 0) := by
    rw [hd]
    unfold accelVel input_scale
    rw [Prod.ext_iff]
    constructor <;> simp <;> norm_num
  have hma : magnitude ((4 : ℝ) / 5, (0 : ℝ)) = 4 / 5 :=
    magnitude_eval (by norm_num) (by norm_num)
  have hmd : magnitude ((3 : ℝ) / 10, (0 : ℝ)) = 3 / 10 :=
    magnitude_eval (by norm_num) (by norm_num)
  have hcond : magnitude (accelVel (1, 0) (1 / 2)
        (dragVel (1 / 2) ((1 : ℝ) / 2, (0 : ℝ)))) > max_vel ∧
      magnitude (accelVel (1, 0) (1 / 2)
        (dragVel (1 / 2) ((1 : ℝ) / 2, (0 : ℝ)))) >
        magnitude (dragVel (1 / 2) ((1 : ℝ) / 2, (0 : ℝ))) := by
    rw [ha, hd, hma, hmd]
    norm_num [max_vel]
  have h := (c7_clamp_exact ((1 : ℝ) / 2, (0 : ℝ)) (1, 0) (1 / 2)).1 hcond
  constructor
  · rw [h.1, ha, hd, hmd]
    have hnorm : normalize ((4 : ℝ) / 5, (0 : ℝ)) = (1, 0) := by
      unfold normalize
      rw [hma, Prod.ext_iff]
      constructor <;> simp <;> norm_num
    rw [hnorm, Prod.ext_iff]
    constructor <;> simp
  · rw [h.2, hd, hmd]

/-- C1 (amended): after the drag-and-clamp stage the velocity magnitude
never exceeds the larger of `max_vel` and the post-drag (pre-acceleration)
magnitude: input acceleration alone can never push the speed above the
cap, but drag amplification (`delta > 1/drag` flips and scales the
velocity) and the bounce speed `0.75 > max_vel` can leave it above
`max_vel`. -/
theorem c1_amended_clamp_bound (vel input : Vec2) (δ : ℝ) :
    magnitude (velAfterDragClamp vel input δ) ≤
      max max_vel (magnitude (dragVel δ vel)) := by
  unfold velAfterDragClamp clampVel
  split_ifs with h
  · have hne : accelVel input δ (dragVel δ vel) ≠ 0 :=
      ne_zero_of_magnitude_gt (by norm_num [max_vel]) h.1
    rw [magnitude_smul_normalize (magnitude_nonneg _) hne]
    exact le_max_right _ _
  · rcases not_and_or.mp h with h1 | h1
    · exact le_trans (not_lt.mp h1) (le_max_left _ _)
    · exact le_trans (not_lt.mp h1) (le_max_right _ _)

/-- C2 (amended): whenever the incoming (post-clamp) velocity is nonzero
and the obstacle center does not coincide with the player position, the
bounce response has magnitude exactly `bounce_vel`.  Both side conditions
are needed: at zero incoming velocity the reflected vector is zero, and
at coincident centers `(collision_pos - pos).normalize()` is zero-length;
in either case the source's f32 normalize divides zero by zero (NaN) and
the post-bounce speed is not `bounce_vel`. -/
theorem c2_amended_bounce_magnitude (p c v : Vec2) (hv : v ≠ 0)
    (hc : c ≠ p) : magnitude (bounceResponse p c v) = bounce_vel := by
  unfold bounceResponse
  have hsub : c - p ≠ 0 := sub_ne_zero.mpr hc
  have hw : magnitude (reflect_vec v (perp (normalize (c - p)))) =
      magnitude v :=
    magnitude_reflect v _
      (by rw [magnitude_perp]; exact magnitude_normalize _ hsub)
  have hwne : reflect_vec v (perp (normalize (c - p))) ≠ 0 := by
    intro h0
    rw [h0, magnitude_zero] at hw
    exact hv ((magnitude_eq_zero_iff v).mp hw.symm)
  rw [magnitude_smul, magnitude_neg, magnitude_normalize _ hwne, mul_one,
    abs_of_pos (by norm_num [bounce_vel])]

/-- Witness for C2 (amended) at a concrete input: a bounce of the nonzero
velocity `(3/10, 0)` off an obstacle at `(1/10, 0)`, distinct from the
player position `(0, 0)`, comes out with magnitude exactly
`bounce_vel`. -/
theorem c2_amended_witness :
    ((3 : ℝ) / 10, (0 : ℝ)) ≠ (0 : Vec2) ∧
    ((1 : ℝ) / 10, (0 : ℝ)) ≠ ((0 : ℝ), (0 : ℝ)) ∧
    magnitude (bounceResponse (0, 0) ((1 : ℝ) / 10, (0 : ℝ))
      ((3 : ℝ) / 10, (0 : ℝ))) = bounce_vel := by
  refine ⟨?_, ?_, c2_amended_bounce_magnitude _ _ _ ?_ ?_⟩ <;>
    · intro h
      rw [Prod.ext_iff] at h
      norm_num at h

-- Frame evaluation helpers ------------------------------------------------

theorem frame_of_active (obs : List Vec2) (input : Vec2) (δ : ℝ)
    (s : GameState) (h : s.result = none) :
    frame obs input δ s = frameActive obs input δ s := by
  unfold frame
  rw [h]
  simp

/-- Explicit form of one active frame, with the collision scan and the
velocity pipeline abstracted into equation hypotheses. -/
theorem frameActive_eq (obs : List Vec2) (input : Vec2) (δ : ℝ)
    (s : GameState) (mc : Option Vec2) (v3 : Vec2)
    (hmc : detectCollision obs s.pos = mc)
    (hv3 : v3 = (if distance s.pos goal_start_pos <
                    PLAYER_RADIUS + GOAL_RADIUS
                 then applyBounce s.pos mc (velAfterDragClamp s.vel input δ) +
                      goalImpulse s.pos δ
                 else applyBounce s.pos mc
                        (velAfterDragClamp s.vel input δ))) :
    frameActive obs input δ s =
      if distance s.pos goal_start_pos < (PLAYER_RADIUS + GOAL_RADIUS) / 3
      then
        { s with
          vel := v3
          life := lifeAfter s.life mc
          result := some EndReason.won }
      else
        { s with
          pos := s.pos + δ • v3
          vel := v3
          life := lifeAfter s.life mc
          result := if (mc.isSome ∧ lifeAfter s.life mc ≤ 0) ∨
                       outOfBounds (s.pos + δ • v3)
                    then some EndReason.died else none } := by
  subst hmc
  subst hv3
  rfl

/-- Variant of `frameActive_eq` that also abstracts the updated position
into an equation hypothesis. -/
theorem frameActive_eqP (obs : List Vec2) (input : Vec2) (δ : ℝ)
    (s : GameState) (mc : Option Vec2) (v3 p2 : Vec2)
    (hmc : detectCollision obs s.pos = mc)
    (hv3 : v3 = (if distance s.pos goal_start_pos <
                    PLAYER_RADIUS + GOAL_RADIUS
                 then applyBounce s.pos mc (velAfterDragClamp s.vel input δ) +
                      goalImpulse s.pos δ
                 else applyBounce s.pos mc
                        (velAfterDragClamp s.vel input δ)))
    (hp2 : p2 = s.pos + δ • v3) :
    frameActive obs input δ s =
      if distance s.pos goal_start_pos < (PLAYER_RADIUS + GOAL_RADIUS) / 3
      then
        { s with
          vel := v3
          life := lifeAfter s.life mc
          result := some EndReason.won }
      else
        { s with
          pos := p2
          vel := v3
          life := lifeAfter s.life mc
          result := if (mc.isSome ∧ lifeAfter s.life mc ≤ 0) ∨
                       outOfBounds p2
                    then some EndReason.died else none } := by
  subst hmc
  subst hv3
  subst hp2
  rfl

theorem bounceResponse_zero_vel (p c : Vec2) :
    bounceResponse p c 0 = 0 := by
  unfold bounceResponse
  have hr : reflect_vec 0 (perp (normalize (c - p))) = 0 := by
    unfold reflect_vec dot
    simp
  rw [hr, normalize_zero]
  simp

-- C2 counterexample -------------------------------------------------------

theorem detect_obsC2 : detectCollision obsC2 sC2.pos =
    some ((1 : ℝ) / 10, (0 : ℝ)) := by
  unfold detectCollision obsC2 sC2
  simp only [List.foldl]
  rw [if_pos]
  rw [collision_cond]
  unfold distance2
  norm_num

theorem velAfterDragClamp_zero (input : Vec2) (δ : ℝ)
    (h : ¬ magnitude ((input_scale * δ) • input) > max_vel) :
    velAfterDragClamp 0 input δ = (input_scale * δ) • input := by
  unfold velAfterDragClamp clampVel accelVel dragVel
  rw [smul_zero, zero_add, magnitude_zero]
  rw [if_neg]
  intro hc
  exact h hc.1

/-- C2 is false as stated: on a frame where the player is at rest and a
collision is detected, the bounce response normalizes the zero reflected
vector (in the source, a division of zero by zero) and the post-bounce
velocity has magnitude `0`, not `bounce_vel`. -/
theorem c2_counterexample :
    (detectCollision obsC2 sC2.pos).isSome = true ∧
    sC2.result = none ∧
    (frame obsC2 (0, 0) 0 sC2).vel = 0 ∧
    magnitude ((frame obsC2 (0, 0) 0 sC2).vel) ≠ bounce_vel := by
  have hv1 : velAfterDragClamp sC2.vel (0, 0) 0 = 0 := by
    show velAfterDragClamp 0 (0, 0) 0 = 0
    rw [velAfterDragClamp_zero]
    · simp
    · rw [mul_zero, zero_smul, magnitude_zero]
      norm_num [max_vel]
  have hframe : frame obsC2 (0, 0) 0 sC2 =
      { sC2 with
        pos := sC2.pos + (0 : ℝ) • (0 : Vec2)
        vel := (0 : Vec2)
        life := 9
        result := none } := by
    rw [frame_of_active _ _ _ _ rfl]
    rw [frameActive_eq obsC2 (0, 0) 0 sC2 (some ((1 : ℝ) / 10, (0 : ℝ)))
      (0 : Vec2) detect_obsC2 ?_]
    · rw [if_neg]
      · have : lifeAfter sC2.life (some ((1 : ℝ) / 10, (0 : ℝ))) = 9 := by
          unfold lifeAfter sC2
          norm_num
        rw [this]
        rw [if_neg]
        intro hdead
        rcases hdead with ⟨_, h9⟩ | hob
        · norm_num at h9
        · unfold outOfBounds sC2 at hob
          simp only [smul_zero, add_zero] at hob
          norm_num [PLAYER_RADIUS] at hob
      · rw [goal_win_cond]
        unfold distance2 sC2 goal_start_pos
        norm_num
    · rw [if_neg]
      · rw [hv1]
        simp only [applyBounce, bounceResponse_zero_vel]
      · rw [goal_near_cond]
        unfold distance2 sC2 goal_start_pos
        norm_num
  rw [hframe, detect_obsC2]
  refine ⟨rfl, rfl, rfl, ?_⟩
  rw [magnitude_zero]
  norm_num [bounce_vel]

-- C5: the goal-attraction impulse -----------------------------------------

theorem normalize_pair {a b m : ℝ} (hm : 0 < m)
    (h : m ^ 2 = a ^ 2 + b ^ 2) :
    normalize (a, b) = (a / m, b / m) := by
  unfold normalize
  rw [magnitude_eval (le_of_lt hm) (by simpa using h)]
  rw [Prod.ext_iff]
  constructor <;> simp [Prod.smul_def, smul_eq_mul] <;> field_simp

/-- C5 is false as stated: at `delta = 1/2`, with the player within the
attraction radius of the goal, the impulse has magnitude
`win_vel * delta = 9/20`, not `win_vel * delta^2 = 9/40`: the outer
normalize cancels the inner `delta` factor. -/
theorem c5_counterexample :
    distance ((13 : ℝ) / 20, -((3 : ℝ) / 4)) goal_start_pos <
      PLAYER_RADIUS + GOAL_RADIUS ∧
    magnitude (goalImpulse ((13 : ℝ) / 20, -((3 : ℝ) / 4)) (1 / 2)) ≠
      win_vel * (1 / 2) ^ 2 := by
  constructor
  · rw [goal_near_cond]
    unfold distance2 goal_start_pos
    norm_num
  · have hgp : goal_start_pos - ((13 : ℝ) / 20, -((3 : ℝ) / 4)) =
        ((1 : ℝ) / 10, (0 : ℝ)) := by
      unfold goal_start_pos
      rw [Prod.ext_iff]
      constructor <;> simp <;> norm_num
    have e1 : normalize ((1 : ℝ) / 10, (0 : ℝ)) = ((1 : ℝ), (0 : ℝ)) := by
      rw [normalize_pair (m := (1 : ℝ) / 10) (by norm_num) (by norm_num)]
      rw [Prod.ext_iff]
      norm_num
    have e2 : ((1 : ℝ) / 2) • ((1 : ℝ), (0 : ℝ)) =
        ((1 : ℝ) / 2, (0 : ℝ)) := by
      rw [Prod.ext_iff]
      constructor <;> simp [Prod.smul_def, smul_eq_mul]
    have e3 : normalize ((1 : ℝ) / 2, (0 : ℝ)) = ((1 : ℝ), (0 : ℝ)) := by
      rw [normalize_pair (m := (1 : ℝ) / 2) (by norm_num) (by norm_num)]
      rw [Prod.ext_iff]
      norm_num
    have himp : goalImpulse ((13 : ℝ) / 20, -((3 : ℝ) / 4)) (1 / 2) =
        ((9 : ℝ) / 20, (0 : ℝ)) := by
      unfold goalImpulse
      rw [hgp, e1, e2, e3]
      rw [Prod.ext_iff]
      constructor <;> simp [Prod.smul_def, smul_eq_mul] <;>
        norm_num [win_vel]
    rw [himp, magnitude_eval (m := (9 : ℝ) / 20) (by norm_num) (by norm_num)]
    norm_num [win_vel]

/-- C5 (amended): with a positive `delta` and the player strictly away
from the goal center, the attraction impulse has magnitude exactly
`win_vel * delta` — proportional to `delta`, not to `delta` squared (the
second normalize cancels the inner `delta` factor). -/
theorem c5_amended_impulse_linear (p : Vec2) (δ : ℝ) (hδ : 0 < δ)
    (hp : p ≠ goal_start_pos)
    (hnear : distance p goal_start_pos < PLAYER_RADIUS + GOAL_RADIUS) :
    magnitude (goalImpulse p δ) = win_vel * δ := by
  unfold goalImpulse
  have hne : goal_start_pos - p ≠ 0 := sub_ne_zero.mpr (Ne.symm hp)
  have hδu : magnitude (δ • normalize (goal_start_pos - p)) = δ := by
    rw [magnitude_smul, magnitude_normalize _ hne, mul_one, abs_of_pos hδ]
  have hδune : δ • normalize (goal_start_pos - p) ≠ 0 := by
    intro h0
    rw [h0, magnitude_zero] at hδu
    exact (ne_of_gt hδ) hδu.symm
  rw [magnitude_smul, magnitude_normalize _ hδune, mul_one,
    abs_of_pos (mul_pos (by norm_num [win_vel]) hδ)]

/-- Witness for C5 (amended) at a concrete input: player at
`(13/20, -3/4)`, `delta = 1/2`, impulse magnitude `win_vel * (1/2)`. -/
theorem c5_amended_witness :
    (0 : ℝ) < 1 / 2 ∧
    ((13 : ℝ) / 20, -((3 : ℝ) / 4)) ≠ goal_start_pos ∧
    distance ((13 : ℝ) / 20, -((3 : ℝ) / 4)) goal_start_pos <
      PLAYER_RADIUS + GOAL_RADIUS ∧
    magnitude (goalImpulse ((13 : ℝ) / 20, -((3 : ℝ) / 4)) (1 / 2)) =
      win_vel * (1 / 2) := by
  have h2 : ((13 : ℝ) / 20, -((3 : ℝ) / 4)) ≠ goal_start_pos := by
    unfold goal_start_pos
    intro h
    rw [Prod.ext_iff] at h
    norm_num at h
  have h3 : distance ((13 : ℝ) / 20, -((3 : ℝ) / 4)) goal_start_pos <
      PLAYER_RADIUS + GOAL_RADIUS := by
    rw [goal_near_cond]
    unfold distance2 goal_start_pos
    norm_num
  exact ⟨by norm_num, h2, h3,
    c5_amended_impulse_linear _ _ (by norm_num) h2 h3⟩

-- C9: delta = 0 and the position ------------------------------------------

/-- C9 is false of the program as stated: on a `delta = 0` frame with the
player at rest inside the goal's attraction radius, the goal-impulse
stage normalizes the zero-magnitude vector `0 • normalize (goal - pos)`.
In the source's f32 arithmetic that division of zero by zero is NaN; the
NaN is multiplied into the velocity and then
`new_pos = pos + vel * 0 = pos + NaN * 0` is NaN, so the position does
change.  The degenerate normalization on such a frame is exhibited
here. -/
theorem c9_counterexample :
    sC9.result = none ∧
    (0 : Vec2) ∈ frameNormalizeArgs [] (0, 0) 0 sC9 ∧
    magnitude (0 : Vec2) = 0 := by
  refine ⟨rfl, ?_, magnitude_zero⟩
  have hnear : distance sC9.pos goal_start_pos <
      PLAYER_RADIUS + GOAL_RADIUS := by
    rw [goal_near_cond]
    unfold distance2 sC9 goal_start_pos
    norm_num
  have hva : accelVel (0, 0) 0 (dragVel 0 sC9.vel) = 0 := by
    unfold accelVel dragVel sC9 input_scale
    simp
  simp only [frameNormalizeArgs]
  rw [if_neg (by simp [sC9])]
  simp only [detectCollision, List.foldl]
  rw [if_neg ?hc, if_pos hnear]
  case hc =>
    intro hand
    rw [hva, magnitude_zero] at hand
    have := hand.1
    norm_num [max_vel] at this
  simp only [List.nil_append, List.mem_cons, List.mem_singleton]
  right
  left
  rw [zero_smul]

/-- C9 (amended): a Simulation Step with `delta = 0` leaves the player's
position unchanged provided no zero-magnitude vector reaches a
`normalize` call that frame — the guard that keeps the source's f32
arithmetic NaN-free and this real-valued embedding faithful.  Under the
guard, the integration step contributes zero displacement and the win
branch leaves the position untouched as well. -/
theorem c9_amended_guarded_position (obs : List Vec2) (input : Vec2)
    (s : GameState)
    (hguard : ∀ a ∈ frameNormalizeArgs obs input 0 s, a ≠ 0) :
    (frame obs input 0 s).pos = s.pos := by
  unfold frame
  split_ifs with h
  · rfl
  · unfold frameActive
    simp only [zero_smul, add_zero]
    split_ifs <;> rfl

/-- Witness for C9 (amended) at a concrete input: the initial state is
far from the goal, at rest and collision-free, so the `delta = 0` frame
performs no normalization at all and the position is preserved. -/
theorem c9_amended_witness :
    (frame [] (0, 0) 0 initState).pos = initState.pos := by
  refine c9_amended_guarded_position [] (0, 0) initState ?_
  intro a ha
  have hva : accelVel (0, 0) 0 (dragVel 0 initState.vel) = 0 := by
    unfold accelVel dragVel initState input_scale
    simp
  have hfar : ¬ distance initState.pos goal_start_pos <
      PLAYER_RADIUS + GOAL_RADIUS := by
    rw [goal_near_cond]
    unfold distance2 initState player_start_pos goal_start_pos
    norm_num
  simp only [frameNormalizeArgs] at ha
  rw [if_neg (by simp [initState])] at ha
  simp only [detectCollision, List.foldl] at ha
  rw [if_neg ?hc, if_neg hfar] at ha
  case hc =>
    intro hand
    rw [hva, magnitude_zero] at hand
    have := hand.1
    norm_num [max_vel] at this
  simp at ha

-- C10: the Enemy entity is inert ------------------------------------------

theorem frame_enemyPos (obs : List Vec2) (input : Vec2) (δ : ℝ)
    (s : GameState) : (frame obs input δ s).enemyPos = s.enemyPos := by
  unfold frame
  split_ifs with h
  · rfl
  · simp only [frameActive]
    split_ifs <;> rfl

theorem setEnemy_pos (s : GameState) (e : Vec2) :
    ({ s with enemyPos := e } : GameState).pos = s.pos := rfl

theorem setEnemy_vel (s : GameState) (e : Vec2) :
    ({ s with enemyPos := e } : GameState).vel = s.vel := rfl

theorem setEnemy_life (s : GameState) (e : Vec2) :
    ({ s with enemyPos := e } : GameState).life = s.life := rfl

theorem setEnemy_result (s : GameState) (e : Vec2) :
    ({ s with enemyPos := e } : GameState).result = s.result := rfl

theorem frame_enemy_comm (obs : List Vec2) (input : Vec2) (δ : ℝ)
    (s : GameState) (e : Vec2) :
    frame obs input δ { s with enemyPos := e } =
      { frame obs input δ s with enemyPos := e } := by
  simp only [frame, frameActive, setEnemy_pos, setEnemy_vel, setEnemy_life,
    setEnemy_result]
  split_ifs <;> rfl

theorem runFrames_enemyPos (obs : List Vec2) (fs : List (Vec2 × ℝ))
    (s : GameState) : (runFrames obs fs s).enemyPos = s.enemyPos := by
  induction fs generalizing s with
  | nil => rfl
  | cons f rest ih =>
      show (runFrames obs rest (frame obs f.1 f.2 s)).enemyPos = s.enemyPos
      rw [ih, frame_enemyPos]

/-- C10: the Enemy entity is never mutated — every frame preserves its
position, along any run it stays at its initial value `(0.75, 0.75)` —
and it has no effect on the simulation: substituting any enemy position
commutes with the frame function, so no other state component depends on
it. -/
theorem c10_enemy_inert (obs : List Vec2) (input : Vec2) (δ : ℝ)
    (s : GameState) (fs : List (Vec2 × ℝ)) :
    (frame obs input δ s).enemyPos = s.enemyPos ∧
    (∀ e : Vec2, frame obs input δ { s with enemyPos := e } =
      { frame obs input δ s with enemyPos := e }) ∧
    (runFrames obs fs initState).enemyPos = (0.75, 0.75) := by
  refine ⟨frame_enemyPos obs input δ s, fun e => frame_enemy_comm obs input δ s e, ?_⟩
  rw [runFrames_enemyPos]
  rfl

-- C3: life bookkeeping ----------------------------------------------------

/-- Life after one active frame is `lifeAfter` of the collision scan,
whether the frame ends in a win, a death, or continues. -/
theorem frame_life (obs : List Vec2) (input : Vec2) (δ : ℝ)
    (s : GameState) (h : s.result = none) :
    (frame obs input δ s).life =
      lifeAfter s.life (detectCollision obs s.pos) := by
  rw [frame_of_active _ _ _ _ h]
  simp only [frameActive]
  split_ifs <;> rfl

theorem lifeInv_preserved (obs : List Vec2) (input : Vec2) (δ : ℝ)
    (s : GameState) (hs : lifeInv s) : lifeInv (frame obs input δ s) := by
  by_cases h : s.result = none
  · have hl : 1 ≤ s.life := hs.2.2 h
    have h0 : 0 ≤ s.life := hs.1
    have hmax : s.life ≤ LIFE_MAX := hs.2.1
    rw [frame_of_active _ _ _ _ h]
    unfold lifeInv
    rcases hmc : detectCollision obs s.pos with _ | cpos <;>
      simp only [frameActive, hmc, lifeAfter] <;> split_ifs <;> dsimp only
    all_goals refine ⟨by omega, by omega, fun hres2 => ?_⟩
    all_goals first
      | exact hl
      | exact Option.noConfusion hres2
      | exact hres2.elim
      | (rename_i hdead
         by_contra hlt
         exact hdead (Or.inl ⟨by simp, by omega⟩))
  · unfold frame
    have hsome : s.result.isSome = true := by
      rcases hr : s.result with _ | r
      · exact absurd hr h
      · rfl
    rw [if_pos hsome]
    exact hs

theorem lifeInv_run (obs : List Vec2) (fs : List (Vec2 × ℝ)) :
    lifeInv (runFrames obs fs initState) := by
  have hgen : ∀ (fs : List (Vec2 × ℝ)) (s : GameState), lifeInv s →
      lifeInv (runFrames obs fs s) := by
    intro fs
    induction fs with
    | nil => exact fun s hs => hs
    | cons f rest ih =>
        intro s hs
        exact ih _ (lifeInv_preserved obs f.1 f.2 s hs)
  refine hgen fs initState ?_
  unfold lifeInv initState LIFE_MAX
  norm_num

/-- C3: life starts at `LIFE_MAX`, stays within `0 ≤ life ≤ LIFE_MAX`
along every run; an active frame decrements it by exactly 1 when the
obstacle scan detects a collision (once per frame, however many obstacles
overlap) and leaves it unchanged otherwise. -/
theorem c3_life_bookkeeping (obs : List Vec2) (fs : List (Vec2 × ℝ))
    (input : Vec2) (δ : ℝ) :
    initState.life = LIFE_MAX ∧
    0 ≤ (runFrames obs fs initState).life ∧
    (runFrames obs fs initState).life ≤ LIFE_MAX ∧
    ((runFrames obs fs initState).result = none →
      ((detectCollision obs (runFrames obs fs initState).pos).isSome = true →
        (frame obs input δ (runFrames obs fs initState)).life =
          (runFrames obs fs initState).life - 1) ∧
      (detectCollision obs (runFrames obs fs initState).pos = none →
        (frame obs input δ (runFrames obs fs initState)).life =
          (runFrames obs fs initState).life)) := by
  have hinv := lifeInv_run obs fs
  refine ⟨rfl, hinv.1, hinv.2.1, fun hres => ⟨fun hc => ?_, fun hc => ?_⟩⟩
  · rw [frame_life _ _ _ _ hres]
    rcases hmc : detectCollision obs (runFrames obs fs initState).pos
      with _ | cpos
    · rw [hmc] at hc
      simp at hc
    · rfl
  · rw [frame_life _ _ _ _ hres, hc]
    rfl

/-- Witness for C3 at a concrete input: the empty run is active, no
collision is detected with no obstacles, and a frame leaves life
unchanged. -/
theorem c3_life_bookkeeping_witness :
    (runFrames [] [] initState).result = none ∧
    detectCollision [] (runFrames [] [] initState).pos = none ∧
    (frame [] (0, 0) 1 (runFrames [] [] initState)).life =
      (runFrames [] [] initState).life :=
  ⟨rfl, rfl,
    ((c3_life_bookkeeping [] [] (0, 0) 1).2.2.2 rfl).2 rfl⟩

-- C4: termination ordering on a fatal collision frame ---------------------

theorem detect_obsC4 : detectCollision obsC4 sC4.pos =
    some ((4 : ℝ) / 5, -((7 : ℝ) / 10)) := by
  unfold detectCollision obsC4 sC4
  simp only [List.foldl]
  rw [if_pos]
  rw [collision_cond]
  unfold distance2
  norm_num

/-- C4 is false as stated: the goal checks are not conditioned on a
termination reason already marked this frame.  On a frame where a
collision brings life to zero while the player is inside the win radius,
the run terminates `Won`, not `Died` (the win `break` precedes the dead
check). -/
theorem c4_counterexample :
    sC4.result = none ∧
    (detectCollision obsC4 sC4.pos).isSome = true ∧
    sC4.life ≤ 1 ∧
    (frame obsC4 (0, 0) 0 sC4).result ≠ some EndReason.died := by
  have hwin : distance sC4.pos goal_start_pos <
      (PLAYER_RADIUS + GOAL_RADIUS) / 3 := by
    rw [goal_win_cond]
    unfold distance2 sC4 goal_start_pos
    norm_num
  have hframe : (frame obsC4 (0, 0) 0 sC4).result = some EndReason.won := by
    rw [frame_of_active _ _ _ _ rfl]
    rw [frameActive_eq obsC4 (0, 0) 0 sC4 (some ((4 : ℝ) / 5, -((7 : ℝ) / 10)))
      _ detect_obsC4 rfl]
    rw [if_pos hwin]
  refine ⟨rfl, by rw [detect_obsC4]; rfl, by norm_num [sC4], ?_⟩
  rw [hframe]
  intro h
  exact absurd (Option.some.inj h) (by intro h2; cases h2)

/-- C4 (amended): the goal checks run unconditionally even on a frame
already marked dead.  A frame on which a collision brings life to zero
terminates `Died` provided the win threshold is not met on the same
frame; if it is met, the frame terminates `Won`. -/
theorem c4_amended_death_unless_win (obs : List Vec2) (input : Vec2)
    (δ : ℝ) (s : GameState) (hres : s.result = none)
    (hc : (detectCollision obs s.pos).isSome = true) (hl : s.life ≤ 1) :
    (distance s.pos goal_start_pos < (PLAYER_RADIUS + GOAL_RADIUS) / 3 →
      (frame obs input δ s).result = some EndReason.won) ∧
    (¬ distance s.pos goal_start_pos < (PLAYER_RADIUS + GOAL_RADIUS) / 3 →
      (frame obs input δ s).result = some EndReason.died) := by
  rw [frame_of_active _ _ _ _ hres]
  rcases hmc : detectCollision obs s.pos with _ | cpos
  · rw [hmc] at hc
    simp at hc
  · rw [frameActive_eq obs input δ s (some cpos) _ hmc rfl]
    constructor
    · intro hwin
      rw [if_pos hwin]
    · intro hwin
      rw [if_neg hwin]
      simp only
      rw [if_pos]
      left
      exact ⟨by simp, by simp only [lifeAfter]; omega⟩

/-- Witness for C4 (amended) at a concrete input: a fatal collision away
from the goal terminates the frame with `Died`. -/
theorem c4_amended_witness :
    sC4w.result = none ∧
    (detectCollision obsC2 sC4w.pos).isSome = true ∧
    sC4w.life ≤ 1 ∧
    ¬ distance sC4w.pos goal_start_pos <
        (PLAYER_RADIUS + GOAL_RADIUS) / 3 ∧
    (frame obsC2 (0, 0) 0 sC4w).result = some EndReason.died := by
  have hdet : detectCollision obsC2 sC4w.pos =
      some ((1 : ℝ) / 10, (0 : ℝ)) := detect_obsC2
  have hnw : ¬ distance sC4w.pos goal_start_pos <
      (PLAYER_RADIUS + GOAL_RADIUS) / 3 := by
    rw [goal_win_cond]
    unfold distance2 sC4w goal_start_pos
    norm_num
  refine ⟨rfl, by rw [hdet]; rfl, by norm_num [sC4w], hnw, ?_⟩
  exact (c4_amended_death_unless_win obsC2 (0, 0) 0 sC4w rfl
    (by rw [hdet]; rfl) (by norm_num [sC4w])).2 hnw

-- C8: inputs reaching the normalize operation ------------------------------

/-- C8 is false as stated: normalization is not guarded.  On a frame with
`delta = 0` inside the goal's attraction radius, the inner goal-impulse
normalize receives the zero vector `delta • normalize (goal - pos)` — in
the f32 source, a 0/0 division whose NaN is multiplied into the player's
velocity. -/
theorem c8_counterexample :
    (0 : Vec2) ∈ frameNormalizeArgs [] (0, 0) 0 sC8 ∧
    magnitude (0 : Vec2) = 0 := by
  constructor
  · have hnear : distance sC8.pos goal_start_pos <
        PLAYER_RADIUS + GOAL_RADIUS := by
      rw [goal_near_cond]
      unfold distance2 sC8 goal_start_pos
      norm_num
    have hfar : ¬ magnitude (accelVel (0, 0) 0 (dragVel 0 sC8.vel)) >
        max_vel ∧ True := ⟨by
      unfold accelVel dragVel sC8 input_scale
      intro hgt
      rw [show ((1 : ℝ) - drag * 0) • (0 : Vec2) + ((1 : ℝ) * 0) • ((0 : ℝ), (0 : ℝ)) = 0 by simp] at hgt
      rw [magnitude_zero] at hgt
      norm_num [max_vel] at hgt, trivial⟩
    simp only [frameNormalizeArgs]
    rw [if_neg (by simp [sC8])]
    simp only [detectCollision, List.foldl]
    rw [if_neg (by exact fun hand => hfar.1 hand.1)]
    rw [if_pos hnear]
    simp only [List.nil_append, List.mem_cons, List.mem_singleton]
    right
    left
    rw [zero_smul]
  · exact magnitude_zero

/-- C8 (amended): the normalize calls of a frame receive nonzero vectors
only under side conditions the source does not enforce: `delta` nonzero,
player not exactly at the goal center, and on a collision frame a nonzero
post-clamp velocity and a player not exactly at the obstacle center.
Under those conditions no degenerate normalization occurs. -/
theorem c8_amended_nonzero_args (obs : List Vec2) (input : Vec2) (δ : ℝ)
    (s : GameState) (hδ : δ ≠ 0) (hp : s.pos ≠ goal_start_pos)
    (hcol : ∀ cpos, detectCollision obs s.pos = some cpos →
      cpos ≠ s.pos ∧ velAfterDragClamp s.vel input δ ≠ 0) :
    ∀ a ∈ frameNormalizeArgs obs input δ s, a ≠ 0 := by
  have hgdir : normalize (goal_start_pos - s.pos) ≠ 0 := by
    intro h0
    have h1 := magnitude_normalize _ (sub_ne_zero.mpr (Ne.symm hp))
    rw [h0, magnitude_zero] at h1
    norm_num at h1
  simp only [frameNormalizeArgs]
  by_cases hres : s.result.isSome
  · rw [if_pos hres]
    intro a ha
    simp at ha
  · rw [if_neg hres]
    have hclampNe : ∀ a ∈ (if magnitude (accelVel input δ (dragVel δ s.vel))
          > max_vel ∧ magnitude (accelVel input δ (dragVel δ s.vel)) >
            magnitude (dragVel δ s.vel)
        then [accelVel input δ (dragVel δ s.vel)] else []), a ≠ 0 := by
      split_ifs with hclamp
      · intro a ha
        rw [List.mem_singleton] at ha
        subst ha
        exact ne_zero_of_magnitude_gt (by norm_num [max_vel]) hclamp.1
      · intro a ha
        simp at ha
    have hgoalNe : ∀ a ∈ (if distance s.pos goal_start_pos <
          PLAYER_RADIUS + GOAL_RADIUS
        then [goal_start_pos - s.pos,
              δ • normalize (goal_start_pos - s.pos)] else []), a ≠ 0 := by
      split_ifs with hnear
      · intro a ha
        rcases List.mem_cons.mp ha with rfl | ha2
        · exact sub_ne_zero.mpr (Ne.symm hp)
        · rw [List.mem_singleton] at ha2
          subst ha2
          exact smul_ne_zero hδ hgdir
      · intro a ha
        simp at ha
    have hbounceNe : ∀ a ∈ (match detectCollision obs s.pos with
        | none => ([] : List Vec2)
        | some cpos =>
            [cpos - s.pos,
             reflect_vec (velAfterDragClamp s.vel input δ)
               (perp (normalize (cpos - s.pos)))]), a ≠ 0 := by
      rcases hmc : detectCollision obs s.pos with _ | cpos
      · intro a ha
        simp at ha
      · obtain ⟨hcp, hv1⟩ := hcol cpos hmc
        intro a ha
        rcases List.mem_cons.mp ha with rfl | ha2
        · exact sub_ne_zero.mpr hcp
        · rw [List.mem_singleton] at ha2
          subst ha2
          have hsub : cpos - s.pos ≠ 0 := sub_ne_zero.mpr hcp
          have hiso : magnitude (reflect_vec
              (velAfterDragClamp s.vel input δ)
              (perp (normalize (cpos - s.pos)))) =
              magnitude (velAfterDragClamp s.vel input δ) :=
            magnitude_reflect _ _
              (by rw [magnitude_perp]; exact magnitude_normalize _ hsub)
          intro h0
          rw [h0, magnitude_zero] at hiso
          exact hv1 ((magnitude_eq_zero_iff _).mp hiso.symm)
    intro a ha
    rcases List.mem_append.mp ha with h1 | h2
    · rcases List.mem_append.mp h1 with h3 | h4
      · exact hclampNe a h3
      · exact hbounceNe a h4
    · exact hgoalNe a h2

/-- Witness for C8 (amended) at a concrete input: with `delta = 1`, no
obstacles, and the player inside the attraction radius, the goal-direction
vector fed to normalize is nonzero. -/
theorem c8_amended_witness :
    (1 : ℝ) ≠ 0 ∧
    sC8.pos ≠ goal_start_pos ∧
    (goal_start_pos - sC8.pos) ∈ frameNormalizeArgs [] (0, 0) 1 sC8 ∧
    goal_start_pos - sC8.pos ≠ 0 := by
  have hp : sC8.pos ≠ goal_start_pos := by
    unfold sC8 goal_start_pos
    intro h
    rw [Prod.ext_iff] at h
    norm_num at h
  have hnear : distance sC8.pos goal_start_pos <
      PLAYER_RADIUS + GOAL_RADIUS := by
    rw [goal_near_cond]
    unfold distance2 sC8 goal_start_pos
    norm_num
  have hmem : (goal_start_pos - sC8.pos) ∈
      frameNormalizeArgs [] (0, 0) 1 sC8 := by
    simp only [frameNormalizeArgs]
    rw [if_neg (by simp [sC8])]
    simp only [detectCollision, List.foldl]
    rw [if_neg ?hc, if_pos hnear]
    case hc =>
      intro hand
      have h1 : accelVel (0, 0) 1 (dragVel 1 sC8.vel) = 0 := by
        unfold accelVel dragVel sC8 input_scale
        simp
      rw [h1, magnitude_zero] at hand
      have := hand.1
      norm_num [max_vel] at this
    simp
  exact ⟨by norm_num, hp, hmem,
    c8_amended_nonzero_args [] (0, 0) 1 sC8 (by norm_num) hp
      (fun cpos hsome => by simp [detectCollision] at hsome) _ hmem⟩

-- C6: spacing guarantees of the layout generator ---------------------------

theorem distance2_comm (p q : Vec2) : distance2 p q = distance2 q p := by
  unfold distance2
  ring

theorem foldl_min_le (l : List ℝ) (d c : ℝ) (h : c ≤ l.foldl min d) :
    c ≤ d ∧ ∀ x ∈ l, c ≤ x := by
  induction l generalizing d with
  | nil => exact ⟨h, by simp⟩
  | cons x xs ih =>
      have h2 := ih (min d x) h
      have h3 := le_min_iff.mp h2.1
      refine ⟨h3.1, ?_⟩
      intro y hy
      rcases List.mem_cons.mp hy with rfl | hy2
      · exact h3.2
      · exact h2.2 y hy2

theorem minDist2_ge (pos : Vec2) (prev : List Vec2)
    (h : obstacle_spacing ≤ minDist2 pos prev) :
    ∀ q ∈ prev, obstacle_spacing ≤ distance2 pos q := by
  rcases prev with _ | ⟨q0, qs⟩
  · intro q hq
    simp at hq
  · unfold minDist2 at h
    simp only [List.map_cons] at h
    have h2 := foldl_min_le _ _ _ h
    intro q hq
    rcases List.mem_cons.mp hq with rfl | hq2
    · exact h2.1
    · exact h2.2 _ (List.mem_map_of_mem (distance2 pos) hq2)

theorem placeOne_accepts (draws : List Vec2) :
    ∀ (prev : List Vec2) (p : Vec2) (rest : List Vec2),
      placeOne draws prev = some (p, rest) → ¬ rejectCond p prev := by
  induction draws with
  | nil =>
      intro prev p rest h
      simp [placeOne] at h
  | cons d ds ih =>
      intro prev p rest h
      unfold placeOne at h
      split_ifs at h with hr
      · exact ih prev p rest h
      · obtain ⟨rfl, rfl⟩ : d = p ∧ ds = rest := by
          have := Option.some.inj h
          exact ⟨congrArg Prod.fst this, congrArg Prod.snd this⟩
        exact hr

theorem placeObstacles_ok (n : ℕ) :
    ∀ (draws prev ps : List Vec2),
      ((∀ p ∈ prev, obstacle_spacing ≤ distance2 p player_start_pos ∧
          obstacle_spacing ≤ distance2 p goal_start_pos) ∧
        List.Pairwise (fun p q => obstacle_spacing ≤ distance2 p q) prev) →
      placeObstacles n draws prev = some ps →
      ((∀ p ∈ ps, obstacle_spacing ≤ distance2 p player_start_pos ∧
          obstacle_spacing ≤ distance2 p goal_start_pos) ∧
        List.Pairwise (fun p q => obstacle_spacing ≤ distance2 p q) ps) := by
  induction n with
  | zero =>
      intro draws prev ps hprev h
      simp only [placeObstacles] at h
      rw [← Option.some.inj h]
      exact hprev
  | succ n ih =>
      intro draws prev ps hprev h
      simp only [placeObstacles] at h
      rcases hpo : placeOne draws prev with _ | pr
      · rw [hpo] at h
        simp at h
      · rw [hpo] at h
        have hrej := placeOne_accepts draws prev pr.1 pr.2 (by rw [hpo])
        unfold rejectCond at hrej
        push_neg at hrej
        obtain ⟨h1, h2, h3⟩ := hrej
        have hmin := minDist2_ge pr.1 prev h3
        refine ih pr.2 (prev ++ [pr.1]) ps ⟨?_, ?_⟩ h
        · intro p hp
          rcases List.mem_append.mp hp with hp1 | hp2
          · exact hprev.1 p hp1
          · rw [List.mem_singleton] at hp2
            subst hp2
            exact ⟨h1, h2⟩
        · rw [List.pairwise_append]
          refine ⟨hprev.2, List.pairwise_singleton _ _, ?_⟩
          intro a ha b hb
          rw [List.mem_singleton] at hb
          subst hb
          rw [distance2_comm]
          exact hmin a ha

/-- C6: every obstacle set the layout generator returns (reference
parameters: 16 obstacles, spacing threshold 0.1) keeps squared distance at
least `obstacle_spacing` from the player start, from the goal start, and
between every pair of distinct obstacles. -/
theorem c6_layout_spacing (draws ps : List Vec2)
    (h : obstacleLayout draws = some ps) :
    (∀ p ∈ ps, obstacle_spacing ≤ distance2 p player_start_pos ∧
       obstacle_spacing ≤ distance2 p goal_start_pos) ∧
    List.Pairwise (fun p q => obstacle_spacing ≤ distance2 p q) ps :=
  placeObstacles_ok 16 draws [] ps
    ⟨by simp, List.Pairwise.nil⟩ h

set_option maxHeartbeats 4000000 in
theorem obstacleLayout_drawsC6 : obstacleLayout drawsC6 = some drawsC6 := by
  norm_num [obstacleLayout, placeObstacles, placeOne, rejectCond, minDist2,
    distance2, obstacle_spacing, player_start_pos, goal_start_pos, drawsC6,
    min_def]

/-- Witness for C6 at a concrete input: the generator accepts a 4-by-4
grid of draws and the resulting first obstacle keeps the required squared
distance from the player start. -/
theorem c6_layout_spacing_witness :
    obstacleLayout drawsC6 = some drawsC6 ∧
    obstacle_spacing ≤
      distance2 (-((9:ℝ)/10), -((9:ℝ)/10)) player_start_pos := by
  refine ⟨obstacleLayout_drawsC6, ?_⟩
  have h := (c6_layout_spacing drawsC6 drawsC6 obstacleLayout_drawsC6).1
    (-((9:ℝ)/10), -((9:ℝ)/10)) (by simp [drawsC6])
  exact h.1

-- C1 counterexample: a reachable post-bounce state ------------------------

set_option maxHeartbeats 4000000 in
theorem obstacleLayout_obsC1 : obstacleLayout obsC1 = some obsC1 := by
  norm_num [obstacleLayout, placeObstacles, placeOne, rejectCond, minDist2,
    distance2, obstacle_spacing, player_start_pos, goal_start_pos, obsC1,
    min_def]

set_option maxHeartbeats 1000000 in
theorem detectC1_pos1 : detectCollision obsC1 initState.pos = none := by
  simp only [detectCollision, obsC1, List.foldl, collision_cond]
  norm_num [distance2, initState, player_start_pos]

set_option maxHeartbeats 1000000 in
theorem detectC1_pos2 :
    detectCollision obsC1 (-((1:ℝ)/2), (3:ℝ)/4) = none := by
  simp only [detectCollision, obsC1, List.foldl, collision_cond]
  norm_num [distance2]

set_option maxHeartbeats 1000000 in
theorem detectC1_pos3 :
    detectCollision obsC1 (-((7:ℝ)/20), (3:ℝ)/4) =
      some (-((1:ℝ)/4), ((3:ℝ)/4)) := by
  simp only [detectCollision, obsC1, List.foldl, collision_cond]
  norm_num [distance2]

theorem runC1_step1 :
    frame obsC1 ((1:ℝ), (0:ℝ)) ((1:ℝ)/2) initState =
      { pos := (-((1:ℝ)/2), (3:ℝ)/4)
        vel := ((1:ℝ)/2, (0:ℝ))
        life := 10
        enemyPos := (0.75, 0.75)
        result := none } := by
  have hdrag0 : ((1:ℝ) - drag * ((1:ℝ)/2)) • ((0:ℝ), (0:ℝ)) =
      ((0:ℝ), (0:ℝ)) := by
    rw [Prod.ext_iff]
    constructor <;> simp
  have hsum : ((1:ℝ) - drag * ((1:ℝ)/2)) • ((0:ℝ), (0:ℝ)) +
      (input_scale * ((1:ℝ)/2)) • ((1:ℝ), (0:ℝ)) = ((1:ℝ)/2, (0:ℝ)) := by
    rw [hdrag0, Prod.ext_iff]
    constructor <;> simp [Prod.smul_def, smul_eq_mul, input_scale]
  have hv1 : velAfterDragClamp ((0:ℝ), (0:ℝ)) ((1:ℝ), (0:ℝ)) ((1:ℝ)/2) =
      ((1:ℝ)/2, (0:ℝ)) := by
    unfold velAfterDragClamp clampVel accelVel dragVel
    rw [hsum, hdrag0]
    rw [magnitude_eval (m := (1:ℝ)/2) (by norm_num) (by norm_num),
      magnitude_eval (m := (0:ℝ)) (by norm_num) (by norm_num)]
    rw [if_neg]
    intro hand
    have := hand.1
    norm_num [max_vel] at this
  have hnear1 : ¬ distance initState.pos goal_start_pos <
      PLAYER_RADIUS + GOAL_RADIUS := by
    rw [goal_near_cond]
    unfold distance2 initState player_start_pos goal_start_pos
    norm_num
  have hwin1 : ¬ distance initState.pos goal_start_pos <
      (PLAYER_RADIUS + GOAL_RADIUS) / 3 := by
    rw [goal_win_cond]
    unfold distance2 initState player_start_pos goal_start_pos
    norm_num
  have hpos1 : initState.pos + ((1:ℝ)/2) • ((1:ℝ)/2, (0:ℝ)) =
      (-((1:ℝ)/2), (3:ℝ)/4) := by
    unfold initState player_start_pos
    rw [Prod.ext_iff]
    constructor <;>
      simp [Prod.smul_def, smul_eq_mul, Prod.fst_add, Prod.snd_add] <;>
      norm_num
  rw [frame_of_active _ _ _ _ rfl]
  rw [frameActive_eq obsC1 ((1:ℝ), (0:ℝ)) ((1:ℝ)/2) initState none
    ((1:ℝ)/2, (0:ℝ)) detectC1_pos1 ?hv3]
  case hv3 =>
    rw [if_neg hnear1]
    simp only [applyBounce]
    exact hv1.symm
  rw [if_neg hwin1, hpos1]
  have hoob : ¬ outOfBounds (-((1:ℝ)/2), (3:ℝ)/4) := by
    unfold outOfBounds PLAYER_RADIUS
    norm_num
  rw [GameState.mk.injEq]
  refine ⟨rfl, rfl, rfl, rfl, ?_⟩
  rw [if_neg]
  rintro (⟨hs, _⟩ | hob)
  · simp at hs
  · exact hoob hob

set_option maxHeartbeats 2000000 in
theorem runC1_step2 :
    frame obsC1 ((1:ℝ), (0:ℝ)) ((1:ℝ)/2)
      { pos := (-((1:ℝ)/2), (3:ℝ)/4)
        vel := ((1:ℝ)/2, (0:ℝ))
        life := 10
        enemyPos := (0.75, 0.75)
        result := none } =
      { pos := (-((7:ℝ)/20), (3:ℝ)/4)
        vel := ((3:ℝ)/10, (0:ℝ))
        life := 10
        enemyPos := (0.75, 0.75)
        result := none } := by
  have hdrag : ((1:ℝ) - drag * ((1:ℝ)/2)) • ((1:ℝ)/2, (0:ℝ)) =
      ((3:ℝ)/10, (0:ℝ)) := by
    rw [Prod.ext_iff]
    constructor <;> simp [Prod.smul_def, smul_eq_mul, drag] <;> norm_num
  have hsum : ((1:ℝ) - drag * ((1:ℝ)/2)) • ((1:ℝ)/2, (0:ℝ)) +
      (input_scale * ((1:ℝ)/2)) • ((1:ℝ), (0:ℝ)) = ((4:ℝ)/5, (0:ℝ)) := by
    rw [hdrag, Prod.ext_iff]
    constructor <;>
      simp [Prod.smul_def, smul_eq_mul, input_scale, Prod.fst_add,
        Prod.snd_add] <;>
      norm_num
  have hnorm : normalize ((4:ℝ)/5, (0:ℝ)) = ((1:ℝ), (0:ℝ)) := by
    rw [normalize_pair (m := (4:ℝ)/5) (by norm_num) (by norm_num)]
    rw [Prod.ext_iff]
    norm_num
  have hv2 : velAfterDragClamp ((1:ℝ)/2, (0:ℝ)) ((1:ℝ), (0:ℝ)) ((1:ℝ)/2) =
      ((3:ℝ)/10, (0:ℝ)) := by
    unfold velAfterDragClamp clampVel accelVel dragVel
    rw [hsum, hdrag]
    rw [magnitude_eval (m := (4:ℝ)/5) (by norm_num) (by norm_num),
      magnitude_eval (m := (3:ℝ)/10) (by norm_num) (by norm_num)]
    rw [if_pos (by norm_num [max_vel]), hnorm]
    rw [Prod.ext_iff]
    constructor <;> simp [Prod.smul_def, smul_eq_mul]
  have hnear : ¬ distance (-((1:ℝ)/2), (3:ℝ)/4) goal_start_pos <
      PLAYER_RADIUS + GOAL_RADIUS := by
    rw [goal_near_cond]
    unfold distance2 goal_start_pos
    norm_num
  have hwin : ¬ distance (-((1:ℝ)/2), (3:ℝ)/4) goal_start_pos <
      (PLAYER_RADIUS + GOAL_RADIUS) / 3 := by
    rw [goal_win_cond]
    unfold distance2 goal_start_pos
    norm_num
  have hpos : (-((1:ℝ)/2), (3:ℝ)/4) + ((1:ℝ)/2) • ((3:ℝ)/10, (0:ℝ)) =
      ((-((7:ℝ)/20)), (3:ℝ)/4) := by
    rw [Prod.ext_iff]
    constructor <;>
      simp [Prod.smul_def, smul_eq_mul, Prod.fst_add, Prod.snd_add] <;>
      norm_num
  rw [frame_of_active _ _ _ _ rfl]
  rw [frameActive_eqP obsC1 ((1:ℝ), (0:ℝ)) ((1:ℝ)/2)
    { pos := (-((1:ℝ)/2), (3:ℝ)/4)
      vel := ((1:ℝ)/2, (0:ℝ))
      life := 10
      enemyPos := (0.75, 0.75)
      result := none } none
    ((3:ℝ)/10, (0:ℝ)) ((-((7:ℝ)/20)), (3:ℝ)/4) detectC1_pos2 ?hv3 ?hp2]
  case hv3 =>
    rw [if_neg hnear]
    simp only [applyBounce]
    exact hv2.symm
  case hp2 => exact hpos.symm
  rw [if_neg hwin]
  have hoob : ¬ outOfBounds ((-((7:ℝ)/20)), (3:ℝ)/4) := by
    unfold outOfBounds PLAYER_RADIUS
    norm_num
  rw [GameState.mk.injEq]
  refine ⟨rfl, rfl, rfl, rfl, ?_⟩
  rw [if_neg]
  rintro (⟨hs, _⟩ | hob)
  · simp at hs
  · exact hoob hob

set_option maxHeartbeats 2000000 in
theorem runC1_step3 :
    frame obsC1 ((0:ℝ), (0:ℝ)) (0:ℝ)
      { pos := (-((7:ℝ)/20), (3:ℝ)/4)
        vel := ((3:ℝ)/10, (0:ℝ))
        life := 10
        enemyPos := (0.75, 0.75)
        result := none } =
      { pos := (-((7:ℝ)/20), (3:ℝ)/4)
        vel := (-((3:ℝ)/4), (0:ℝ))
        life := 9
        enemyPos := (0.75, 0.75)
        result := none } := by
  have hdrag : ((1:ℝ) - drag * (0:ℝ)) • ((3:ℝ)/10, (0:ℝ)) =
      ((3:ℝ)/10, (0:ℝ)) := by
    rw [Prod.ext_iff]
    constructor <;> simp [Prod.smul_def, smul_eq_mul]
  have hsum : ((1:ℝ) - drag * (0:ℝ)) • ((3:ℝ)/10, (0:ℝ)) +
      (input_scale * (0:ℝ)) • ((0:ℝ), (0:ℝ)) = ((3:ℝ)/10, (0:ℝ)) := by
    rw [hdrag, Prod.ext_iff]
    constructor <;>
      simp [Prod.smul_def, smul_eq_mul, Prod.fst_add, Prod.snd_add]
  have hv3v : velAfterDragClamp ((3:ℝ)/10, (0:ℝ)) ((0:ℝ), (0:ℝ)) (0:ℝ) =
      ((3:ℝ)/10, (0:ℝ)) := by
    unfold velAfterDragClamp clampVel accelVel dragVel
    rw [hsum, hdrag]
    rw [magnitude_eval (m := (3:ℝ)/10) (by norm_num) (by norm_num)]
    rw [if_neg]
    intro hand
    have := hand.1
    norm_num [max_vel] at this
  have hsub : (-((1:ℝ)/4), ((3:ℝ)/4)) - ((-((7:ℝ)/20)), (3:ℝ)/4) =
      ((1:ℝ)/10, (0:ℝ)) := by
    rw [Prod.ext_iff]
    constructor <;> simp [Prod.fst_sub, Prod.snd_sub] <;> norm_num
  have hn1 : normalize ((1:ℝ)/10, (0:ℝ)) = ((1:ℝ), (0:ℝ)) := by
    rw [normalize_pair (m := (1:ℝ)/10) (by norm_num) (by norm_num)]
    rw [Prod.ext_iff]
    norm_num
  have hperp : perp ((1:ℝ), (0:ℝ)) = ((0:ℝ), (1:ℝ)) := by
    unfold perp
    rw [Prod.ext_iff]
    norm_num
  have hrefl : reflect_vec ((3:ℝ)/10, (0:ℝ)) ((0:ℝ), (1:ℝ)) =
      ((3:ℝ)/10, (0:ℝ)) := by
    unfold reflect_vec dot
    rw [Prod.ext_iff]
    constructor <;>
      simp [Prod.smul_def, smul_eq_mul, Prod.fst_sub, Prod.snd_sub]
  have hn2 : normalize ((3:ℝ)/10, (0:ℝ)) = ((1:ℝ), (0:ℝ)) := by
    rw [normalize_pair (m := (3:ℝ)/10) (by norm_num) (by norm_num)]
    rw [Prod.ext_iff]
    norm_num
  have hb : bounceResponse ((-((7:ℝ)/20)), (3:ℝ)/4) (-((1:ℝ)/4), ((3:ℝ)/4))
      ((3:ℝ)/10, (0:ℝ)) = (-((3:ℝ)/4), (0:ℝ)) := by
    unfold bounceResponse
    rw [hsub, hn1, hperp, hrefl, hn2]
    rw [Prod.ext_iff]
    constructor <;>
      simp [Prod.smul_def, smul_eq_mul, bounce_vel] <;> norm_num
  have hnear : ¬ distance ((-((7:ℝ)/20)), (3:ℝ)/4) goal_start_pos <
      PLAYER_RADIUS + GOAL_RADIUS := by
    rw [goal_near_cond]
    unfold distance2 goal_start_pos
    norm_num
  have hwin : ¬ distance ((-((7:ℝ)/20)), (3:ℝ)/4) goal_start_pos <
      (PLAYER_RADIUS + GOAL_RADIUS) / 3 := by
    rw [goal_win_cond]
    unfold distance2 goal_start_pos
    norm_num
  have hpos : ((-((7:ℝ)/20)), (3:ℝ)/4) + (0:ℝ) • (-((3:ℝ)/4), (0:ℝ)) =
      ((-((7:ℝ)/20)), (3:ℝ)/4) := by
    rw [zero_smul, add_zero]
  rw [frame_of_active _ _ _ _ rfl]
  rw [frameActive_eqP obsC1 ((0:ℝ), (0:ℝ)) (0:ℝ)
    { pos := (-((7:ℝ)/20), (3:ℝ)/4)
      vel := ((3:ℝ)/10, (0:ℝ))
      life := 10
      enemyPos := (0.75, 0.75)
      result := none }
    (some (-((1:ℝ)/4), ((3:ℝ)/4))) (-((3:ℝ)/4), (0:ℝ))
    ((-((7:ℝ)/20)), (3:ℝ)/4) detectC1_pos3 ?hv3 ?hp2]
  case hv3 =>
    rw [if_neg hnear]
    simp only [applyBounce]
    rw [show velAfterDragClamp ((3:ℝ)/10, (0:ℝ)) ((0:ℝ), (0:ℝ)) (0:ℝ) =
        ((3:ℝ)/10, (0:ℝ)) from hv3v]
    exact hb.symm
  case hp2 => exact hpos.symm
  rw [if_neg hwin]
  have hoob : ¬ outOfBounds ((-((7:ℝ)/20)), (3:ℝ)/4) := by
    unfold outOfBounds PLAYER_RADIUS
    norm_num
  rw [GameState.mk.injEq]
  refine ⟨rfl, rfl, by norm_num [lifeAfter], rfl, ?_⟩
  rw [if_neg]
  rintro (⟨_, h9⟩ | hob)
  · simp only [lifeAfter] at h9
    norm_num at h9
  · exact hoob hob

/-- C1 is false as stated: after the explicit three-frame run (two push
frames, then a bounce off the obstacle at `(-1/4, 3/4)`), the run is
still active with velocity `(-3/4, 0)`, and the very next drag-and-clamp
stage (with `delta = 0`, no input) leaves the magnitude at
`3/4 > max_vel`.  The obstacle set is one the reference generator can
produce. -/
theorem c1_counterexample :
    obstacleLayout obsC1 = some obsC1 ∧
    (runFrames obsC1 framesC1 initState).result = none ∧
    magnitude (velAfterDragClamp (runFrames obsC1 framesC1 initState).vel
      ((0:ℝ), (0:ℝ)) 0) > max_vel := by
  have hrun : runFrames obsC1 framesC1 initState =
      { pos := (-((7:ℝ)/20), (3:ℝ)/4)
        vel := (-((3:ℝ)/4), (0:ℝ))
        life := 9
        enemyPos := (0.75, 0.75)
        result := none } := by
    simp only [framesC1, runFrames]
    rw [runC1_step1, runC1_step2, runC1_step3]
  have hdrag : ((1:ℝ) - drag * (0:ℝ)) • (-((3:ℝ)/4), (0:ℝ)) =
      (-((3:ℝ)/4), (0:ℝ)) := by
    rw [Prod.ext_iff]
    constructor <;> simp [Prod.smul_def, smul_eq_mul]
  have hsum : ((1:ℝ) - drag * (0:ℝ)) • (-((3:ℝ)/4), (0:ℝ)) +
      (input_scale * (0:ℝ)) • ((0:ℝ), (0:ℝ)) = (-((3:ℝ)/4), (0:ℝ)) := by
    rw [hdrag, Prod.ext_iff]
    constructor <;>
      simp [Prod.smul_def, smul_eq_mul, Prod.fst_add, Prod.snd_add]
  have hv : velAfterDragClamp (-((3:ℝ)/4), (0:ℝ)) ((0:ℝ), (0:ℝ)) 0 =
      (-((3:ℝ)/4), (0:ℝ)) := by
    unfold velAfterDragClamp clampVel accelVel dragVel
    rw [hsum, hdrag]
    rw [magnitude_eval (m := (3:ℝ)/4) (by norm_num) (by norm_num)]
    rw [if_neg]
    intro hand
    have := hand.2
    norm_num at this
  refine ⟨obstacleLayout_obsC1, ?_, ?_⟩
  · rw [hrun]
  · have hvel : (runFrames obsC1 framesC1 initState).vel =
        (-((3:ℝ)/4), (0:ℝ)) := by rw [hrun]
    rw [hvel, hv, magnitude_eval (m := (3:ℝ)/4) (by norm_num) (by norm_num)]
    norm_num [max_vel]

end CircleGauntlet
